import Mathlib

/-!
A shallow embedding of the analytics aggregation engine of the
`powerbi-manager` repository (`src/app.py`), together with theorems
settling the frozen claims about it.

Conventions of the embedding:
* Python dictionaries that are iterated in insertion order are modelled as
  association lists (`List (String × β)`); lookups take the first matching
  key for dictionaries built by row iteration (no duplicate keys), and the
  last matching key for dictionary comprehensions (later entries overwrite).
* Python `None`-able fields are `Option`; Python numbers are `ℚ`.
* Python truthiness on strings (`a or b`, `if not ts`) is modelled by
  explicit helpers (`pyOr`, `pyOrS`) that treat `none` and `""` as falsy.
* `datetime.fromisoformat(ts.replace("Z", "+00:00"))` followed by
  normalisation to UTC is modelled by `normalize_start_time`, an executable
  parser of the ISO-8601 profile accepted there (date, optional time with
  optional fractional seconds, optional `±HH:MM` offset); a parse failure
  models the raised-and-caught exception.  `str.lower`/`str.upper` are
  modelled on the ASCII range, which covers all status and env strings.
* Python's stable `sort`/`sorted` is modelled by `List.mergeSort`, which is
  also a stable sort for the same boolean comparator.
-/

/-- Python `a or b` on optional strings: `a` if it is truthy (present and
non-empty), otherwise `b` unchanged. -/
def pyOr (a b : Option String) : Option String :=
  match a with
  | some s => if s = "" then b else some s
  | none => b

/-- Python `a or dflt` producing a string: `dflt` when `a` is `None` or `""`. -/
def pyOrS (a : Option String) (dflt : String) : String :=
  match a with
  | some s => if s = "" then dflt else s
  | none => dflt

/-- Python `x or 0` on an optional number (`None` and `0` are falsy, both give `0`). -/
def py_or0 (o : Option ℚ) : ℚ :=
  match o with
  | some v => v
  | none => 0

/-- ASCII model of `str.lower` on a character. -/
def lowerChar (c : Char) : Char :=
  if 65 ≤ c.toNat ∧ c.toNat ≤ 90 then Char.ofNat (c.toNat + 32) else c

/-- ASCII model of `str.upper` on a character. -/
def upperChar (c : Char) : Char :=
  if 97 ≤ c.toNat ∧ c.toNat ≤ 122 then Char.ofNat (c.toNat - 32) else c

/-- ASCII model of Python `str.lower`. -/
def pyLower (s : String) : String := ⟨s.data.map lowerChar⟩

/-- ASCII model of Python `str.upper`. -/
def pyUpper (s : String) : String := ⟨s.data.map upperChar⟩

/-- Code-point lexicographic order on character lists, as Python compares
strings. -/
def lexLe : List Char → List Char → Bool
  | [], _ => true
  | _ :: _, [] => false
  | a :: as, b :: bs =>
    if a.toNat < b.toNat then true
    else if b.toNat < a.toNat then false
    else lexLe as bs

/-- Python string `≤` (code-point lexicographic). -/
def strLe (a b : String) : Bool := lexLe a.data b.data

/-! ### The time normalizer

Model of `datetime.fromisoformat(ts.replace("Z", "+00:00"))` with the
subsequent normalisation to an aware UTC instant, as it appears (inlined)
in `filter_refreshes_by_window`, `build_performance`,
`build_capacity_series`, `performance_sets` and
`compute_avg_interval_hours` of `src/app.py`.  An instant is a rational
number of seconds on the proleptic Gregorian timeline. -/

/-- Raw parsed components of an ISO-8601 timestamp. `offMin` is the UTC
offset in minutes (`none` for a naive timestamp). -/
structure RawDT where
  y : Nat
  mo : Nat
  d : Nat
  h : Nat
  mi : Nat
  s : Nat
  fracNum : Nat
  fracPow : Nat
  offMin : Option Int
deriving DecidableEq

/-- Read exactly two decimal digits. -/
def digits2 : List Char → Option (Nat × List Char)
  | a :: b :: rest =>
    if a.isDigit && b.isDigit then
      some ((a.toNat - 48) * 10 + (b.toNat - 48), rest)
    else none
  | _ => none

/-- Read exactly four decimal digits. -/
def digits4 : List Char → Option (Nat × List Char)
  | a :: b :: c :: d :: rest =>
    if a.isDigit && b.isDigit && c.isDigit && d.isDigit then
      some (((a.toNat - 48) * 1000 + (b.toNat - 48) * 100 +
             (c.toNat - 48) * 10 + (d.toNat - 48)), rest)
    else none
  | _ => none

/-- Greedily read decimal digits, returning their value, their count and
the rest. -/
def takeDigits : List Char → Nat × Nat × List Char
  | [] => (0, 0, [])
  | c :: rest =>
    if c.isDigit then
      let (v, n, r) := takeDigits rest
      ((c.toNat - 48) * 10 ^ n + v, n + 1, r)
    else (0, 0, c :: rest)

/-- Parse a trailing UTC offset `±HH:MM` (the whole rest must be consumed). -/
def parseOffset : List Char → Option Int
  | sign :: rest =>
    if sign = '+' ∨ sign = '-' then
      match digits2 rest with
      | some (oh, ':' :: rest2) =>
        match digits2 rest2 with
        | some (om, []) =>
          if oh ≤ 23 ∧ om ≤ 59 then
            some (if sign = '-' then -((oh * 60 + om : Nat) : Int)
                  else ((oh * 60 + om : Nat) : Int))
          else none
        | _ => none
      | _ => none
    else none
  | [] => none

/-- Parse the time-of-day part `HH:MM[:SS[.fff...]]` with an optional
trailing offset; the whole rest must be consumed. -/
def parseTime (cs : List Char) : Option (Nat × Nat × Nat × Nat × Nat × Option Int) :=
  match digits2 cs with
  | some (h, ':' :: rest) =>
    match digits2 rest with
    | some (mi, rest2) =>
      if h ≤ 23 ∧ mi ≤ 59 then
        match rest2 with
        | [] => some (h, mi, 0, 0, 0, none)
        | ':' :: rest3 =>
          match digits2 rest3 with
          | some (s, rest4) =>
            if s ≤ 59 then
              match rest4 with
              | [] => some (h, mi, s, 0, 0, none)
              | '.' :: rest5 =>
                match takeDigits rest5 with
                | (fv, fn, rest6) =>
                  if fn = 0 then none
                  else
                    match rest6 with
                    | [] => some (h, mi, s, fv, fn, none)
                    | _ => (parseOffset rest6).map fun off => (h, mi, s, fv, fn, some off)
              | _ => (parseOffset rest4).map fun off => (h, mi, s, 0, 0, some off)
            else none
          | _ => none
        | _ => (parseOffset rest2).map fun off => (h, mi, 0, 0, 0, some off)
      else none
    | _ => none
  | _ => none

/-- Gregorian leap year. -/
def isLeap (y : Nat) : Bool := y % 4 = 0 && (y % 100 ≠ 0 || y % 400 = 0)

/-- Days in a month of a given year. -/
def daysInMonth (y m : Nat) : Nat :=
  if m = 2 then (if isLeap y then 29 else 28)
  else if m = 4 ∨ m = 6 ∨ m = 9 ∨ m = 11 then 30
  else 31

/-- Days before the first of month `m` (1-based) in a year of given leapness. -/
def cumMonthDays (leap : Bool) (m : Nat) : Nat :=
  let l : Nat := if leap then 1 else 0
  match m with
  | 1 => 0
  | 2 => 31
  | 3 => 59 + l
  | 4 => 90 + l
  | 5 => 120 + l
  | 6 => 151 + l
  | 7 => 181 + l
  | 8 => 212 + l
  | 9 => 243 + l
  | 10 => 273 + l
  | 11 => 304 + l
  | _ => 334 + l

/-- Day number of a proleptic Gregorian civil date, counting from
0001-01-01 as day 0. -/
def rataDie (y mo d : Nat) : Nat :=
  365 * (y - 1) + (y - 1) / 4 - (y - 1) / 100 + (y - 1) / 400 +
    cumMonthDays (isLeap y) mo + (d - 1)

/-- Parse a full ISO-8601 timestamp `YYYY-MM-DD[sep HH:MM[:SS[.fff]][±HH:MM]]`
(separator `T` or space), with field range validation as in
`datetime.fromisoformat`. -/
def parseISO (cs : List Char) : Option RawDT :=
  match digits4 cs with
  | some (y, '-' :: r1) =>
    match digits2 r1 with
    | some (mo, '-' :: r2) =>
      match digits2 r2 with
      | some (d, r3) =>
        if 1 ≤ y ∧ 1 ≤ mo ∧ mo ≤ 12 ∧ 1 ≤ d ∧ d ≤ daysInMonth y mo then
          match r3 with
          | [] => some ⟨y, mo, d, 0, 0, 0, 0, 0, none⟩
          | sep :: r4 =>
            if sep = 'T' ∨ sep = ' ' then
              (parseTime r4).map fun (h, mi, s, fv, fn, off) =>
                ⟨y, mo, d, h, mi, s, fv, fn, off⟩
            else none
        else none
      | _ => none
    | _ => none
  | _ => none

/-- The UTC instant (seconds on the proleptic Gregorian timeline) of a
parsed timestamp: a naive timestamp is taken as already UTC
(`dt.replace(tzinfo=timezone.utc)`), an aware one is converted
(`dt.astimezone(timezone.utc)`). -/
def RawDT.instantUTC (r : RawDT) : ℚ :=
  ((rataDie r.y r.mo r.d * 86400 + r.h * 3600 + r.mi * 60 + r.s : ℕ) : ℚ) +
    (r.fracNum : ℚ) / ((10 : ℚ) ^ r.fracPow) - 60 * ((r.offMin.getD 0 : ℤ) : ℚ)

/-- `ts.replace("Z", "+00:00")` on the character list of a string. -/
def replaceZchars : List Char → List Char
  | [] => []
  | c :: rest =>
    if c = 'Z' then '+' :: '0' :: '0' :: ':' :: '0' :: '0' :: replaceZchars rest
    else c :: replaceZchars rest

/-- The shared time-normalisation snippet of `src/app.py`:
`datetime.fromisoformat(ts.replace("Z", "+00:00"))` normalised to a UTC
instant; `none` models the exception raised on a malformed timestamp. -/
def normalize_start_time (ts : String) : Option ℚ :=
  (parseISO (replaceZchars ts.data)).map RawDT.instantUTC

/-! ### Data model -/

/-- A workspace from the connector (`{id, name}`). -/
structure Workspace where
  id : Option String
  name : Option String
deriving DecidableEq

/-- A category row (`{env, module}`), keyed by workspace id. -/
structure Cat where
  env : Option String
  module : Option String
deriving DecidableEq

/-- A semantic model record; `build_performance` reads `model_id`, `id`
and `name`. -/
structure SemModel where
  model_id : Option String
  id : Option String
  name : Option String
deriving DecidableEq

/-- A refresh-history record as consumed by the engine. -/
structure Refresh where
  start_time : Option String
  startTime : Option String
  status : Option String
  duration_seconds : Option ℚ
deriving DecidableEq

/-- A capacity sample; `build_capacity_series` reads `ts`/`timestamp` and
`cu`/`value`. -/
structure CapPoint where
  ts : Option String
  timestamp : Option String
  cu : Option ℚ
  value : Option ℚ
deriving DecidableEq

/-- A plot point `{x, y}`. -/
structure XY where
  x : String
  y : ℚ
deriving DecidableEq

/-- Mapping `dataset_id → [refresh record, newest first]`. -/
abbrev DsMap := List (String × List Refresh)

/-- Mapping `workspace_id → dataset_id → [refresh record]`. -/
abbrev RefMap := List (String × DsMap)

/-- First-match association-list lookup (Python `dict.get` for dicts built
by row iteration, which have no duplicate keys). -/
def alGet {β : Type} (m : List (String × β)) (k : String) : Option β :=
  (m.find? fun p => p.1 = k).map (·.2)

/-- `{ws.get("id"): ws for ws in workspaces}.get(k)`: a dictionary
comprehension lets later entries overwrite earlier ones, so the last
matching workspace wins. -/
def wsById (workspaces : List Workspace) (k : String) : Option Workspace :=
  workspaces.reverse.find? fun w => w.id = some k

/-- `ts = r.get("start_time") or r.get("startTime")` followed by the
`if not ts: continue` truthiness guard: the start-time string actually
used, `none` when both fields are falsy. -/
def Refresh.tsStr (r : Refresh) : Option String :=
  match pyOr r.start_time r.startTime with
  | none => none
  | some s => if s = "" then none else some s

/-- `(r.get("status") or "").lower()`. -/
def rStatusNorm (r : Refresh) : String := pyLower (pyOrS r.status "")

/-- The non-null durations of a refresh list
(`[r.get("duration_seconds") for r in rlist if ... is not None]`). -/
def durationsOf (rlist : List Refresh) : List ℚ :=
  rlist.filterMap (·.duration_seconds)

/-! ### Performance aggregator (`build_performance`, `src/app.py:94-167`) -/

/-- `avg_sec = sum(durations) / len(durations) if durations else 0`. -/
def perf_avg_sec (rlist : List Refresh) : ℚ :=
  let durations := durationsOf rlist
  if durations.isEmpty then 0 else durations.sum / durations.length

/-- `last = rlist[0] if rlist else {}; last_sec = last.get("duration_seconds") or 0`. -/
def perf_last_sec (rlist : List Refresh) : ℚ :=
  match rlist with
  | [] => 0
  | last :: _ => py_or0 last.duration_seconds

/-- `outlier = avg_sec > 0 and last_sec > avg_sec * 1.1`. -/
def perf_outlier (rlist : List Refresh) : Bool :=
  decide (perf_avg_sec rlist > 0) &&
    decide (perf_last_sec rlist > perf_avg_sec rlist * (11 / 10))

/-- `efficient = failures == 0 and avg_sec > 0 and avg_sec <= 300`. -/
def perf_efficient (failures : ℕ) (rlist : List Refresh) : Bool :=
  failures = 0 && decide (perf_avg_sec rlist > 0) && decide (perf_avg_sec rlist ≤ 300)

/-- The timestamp-collection loop inside `build_performance`'s single
`try`: absent (falsy) start times are skipped, but the first present yet
unparseable one raises, aborting the whole collection (`none`). -/
def collect_timestamps : List Refresh → Option (List ℚ)
  | [] => some []
  | r :: rs =>
    match r.tsStr with
    | none => collect_timestamps rs
    | some s =>
      match normalize_start_time s with
      | none => none
      | some t => (collect_timestamps rs).map (t :: ·)

/-- Consecutive gaps in hours:
`(timestamps[i] - timestamps[i-1]).total_seconds() / 3600.0`. -/
def deltasH : List ℚ → List ℚ
  | a :: b :: rest => (b - a) / 3600 :: deltasH (b :: rest)
  | _ => []

/-- The `freq_per_hour`/`avg_interval_hours` computation of
`build_performance` (`src/app.py:119-144`): both `0` when the list is
empty, when fewer than two valid timestamps exist, or when the `except`
branch fires because some present start time fails to parse. -/
def interval_freq (rlist : List Refresh) : ℚ × ℚ :=
  if rlist.isEmpty then (0, 0)
  else
    match collect_timestamps rlist with
    | none => (0, 0)
    | some tsl =>
      let sorted := tsl.mergeSort fun a b => decide (a ≤ b)
      if 2 ≤ sorted.length then
        let deltas := deltasH sorted
        let avg_interval_hours := if deltas.isEmpty then 0 else deltas.sum / deltas.length
        let freq_per_hour := if avg_interval_hours = 0 then 0 else 1 / avg_interval_hours
        (freq_per_hour, avg_interval_hours)
      else (0, 0)

/-- One per-model output record of `build_performance`. -/
structure ModelPerf where
  workspace_id : String
  workspace_name : String
  env : String
  module : String
  model_id : Option String
  model_name : Option String
  avg_sec : ℚ
  last_sec : ℚ
  failures : ℕ
  successes : ℕ
  total : ℕ
  freq_per_hour : ℚ
  avg_interval_hours : ℚ
  last_status : Option String
  outlier : Bool
  efficient : Bool
deriving DecidableEq

/-- The record `build_performance` appends for one semantic model. -/
def mkModelPerf (ws_id : String) (ws : Option Workspace) (cat : Option Cat)
    (m : SemModel) (rlist : List Refresh) : ModelPerf :=
  let mid := pyOr m.model_id m.id
  let failures := (rlist.filter fun r => rStatusNorm r ≠ "completed").length
  let successes := (rlist.filter fun r => rStatusNorm r = "completed").length
  let fi := interval_freq rlist
  { workspace_id := ws_id
    workspace_name := pyOrS (ws.bind (·.name)) ws_id
    env := pyUpper (pyOrS (cat.bind (·.env)) "")
    module := pyOrS (cat.bind (·.module)) "Unassigned"
    model_id := mid
    model_name := pyOr m.name mid
    avg_sec := perf_avg_sec rlist
    last_sec := perf_last_sec rlist
    failures := failures
    successes := successes
    total := rlist.length
    freq_per_hour := fi.1
    avg_interval_hours := fi.2
    last_status := rlist.head?.bind (·.status)
    outlier := perf_outlier rlist
    efficient := perf_efficient failures rlist }

/-- `rlist = refresh_map.get(mid) or []` (a `None` key finds nothing). -/
def rlistFor (refresh_map : DsMap) (mid : Option String) : List Refresh :=
  match mid with
  | some s => (alGet refresh_map s).getD []
  | none => []

/-- `build_performance` (`src/app.py:94-167`): the flat per-model listing. -/
def build_performance (workspaces : List Workspace) (categories : List (String × Cat))
    (semantic_models : List (String × List SemModel)) (refreshes_by_ws : RefMap)
    (skip_empty : Bool) : List ModelPerf :=
  semantic_models.flatMap fun p =>
    let ws_id := p.1
    let ws := wsById workspaces ws_id
    let cat := alGet categories ws_id
    let refresh_map := (alGet refreshes_by_ws ws_id).getD []
    p.2.flatMap fun m =>
      let mid := pyOr m.model_id m.id
      let rlist := rlistFor refresh_map mid
      if skip_empty && rlist.isEmpty then []
      else [mkModelPerf ws_id ws cat m rlist]

/-! ### Window filter (`filter_refreshes_by_window`, `src/app.py:170-193`) -/

/-- The per-record predicate of `filter_refreshes_by_window`: keep a
record iff its (truthy) start time parses and the instant is `≥ cutoff`;
absent or unparseable start times are dropped (`continue`). -/
def keepRefresh (cutoff : ℚ) (r : Refresh) : Bool :=
  match r.tsStr with
  | none => false
  | some s =>
    match normalize_start_time s with
    | none => false
    | some dt => decide (dt ≥ cutoff)

/-- The inner per-record loop of `filter_refreshes_by_window` on one
dataset's list. -/
def filter_rlist (cutoff : ℚ) (rlist : List Refresh) : List Refresh :=
  rlist.filter (keepRefresh cutoff)

/-- `filter_refreshes_by_window`: identity for a `None` cutoff, otherwise a
shape-preserving copy (every workspace and dataset key is kept, with its
list filtered). -/
def filter_refreshes_by_window (refreshes_by_ws : RefMap) (cutoff : Option ℚ) : RefMap :=
  match cutoff with
  | none => refreshes_by_ws
  | some c =>
    refreshes_by_ws.map fun p => (p.1, p.2.map fun q => (q.1, filter_rlist c q.2))

/-! ### Capacity series builder (`build_capacity_series`, `src/app.py:196-216`) -/

/-- `val = p.get("cu") if p.get("cu") is not None else p.get("value")`. -/
def capVal (p : CapPoint) : Option ℚ :=
  match p.cu with
  | some v => some v
  | none => p.value

/-- The point a capacity sample contributes, if any: both `ts` and `val`
present, timestamp parseable, and instant `≥ cutoff` (or no cutoff). -/
def capKeep (cutoff : Option ℚ) (p : CapPoint) : Option XY :=
  match pyOr p.ts p.timestamp, capVal p with
  | some ts, some val =>
    match normalize_start_time ts with
    | none => none
    | some dt =>
      match cutoff with
      | none => some ⟨ts, val⟩
      | some c => if dt ≥ c then some ⟨ts, val⟩ else none
  | _, _ => none

/-- `build_capacity_series`: collect the surviving `{x, y}` points and
stably sort them ascending by the original timestamp string. -/
def build_capacity_series (capacity_metrics : List CapPoint) (cutoff : Option ℚ) :
    List XY :=
  if capacity_metrics.isEmpty then []
  else (capacity_metrics.filterMap (capKeep cutoff)).mergeSort fun a b => strLe a.x b.x

/-! ### Summary builder (`build_summary`, `src/app.py:41-91`) -/

/-- The "slow" test of `build_summary` (`src/app.py:64-68`): with a
non-empty refresh list and at least one non-null duration, compare the
most recent record's duration (`or 0`) against the mean times 1.1. -/
def summary_slow (rlist : List Refresh) : Bool :=
  match rlist with
  | [] => false
  | latest :: _ =>
    let durations := durationsOf rlist
    if durations.isEmpty then false
    else decide (py_or0 latest.duration_seconds > durations.sum / durations.length * (11 / 10))

/-- The "failed" test of `build_summary` (`src/app.py:61-63`): the most
recent record's normalized status is not "completed". -/
def summary_failed (rlist : List Refresh) : Bool :=
  match rlist with
  | [] => false
  | latest :: _ => rStatusNorm latest ≠ "completed"

/-- Per-workspace stats of `build_summary`. -/
structure WsStats where
  model_count : ℕ
  failed_count : ℕ
  slow_count : ℕ
  failed_models : List (Option String)
  slow_models : List (Option String)
deriving DecidableEq

/-- One workspace entry appended under `summary[module][env]`. -/
structure WsEntry where
  id : String
  name : Option String
  models : List SemModel
  stats : WsStats
deriving DecidableEq

/-- `summary.setdefault(module, {}); summary[module].setdefault(env, []);
summary[module][env].append(entry)` on nested insertion-ordered dicts. -/
def upsertSummary (summary : List (String × List (String × List WsEntry)))
    (module env : String) (e : WsEntry) :
    List (String × List (String × List WsEntry)) :=
  match summary with
  | [] => [(module, [(env, [e])])]
  | (m, envs) :: rest =>
    if m = module then
      let envs' :=
        match envs.find? fun q => q.1 = env with
        | none => envs ++ [(env, [e])]
        | some _ => envs.map fun q => if q.1 = env then (q.1, q.2 ++ [e]) else q
      (m, envs') :: rest
    else (m, envs) :: upsertSummary rest module env e

/-- The stats `build_summary` computes for one workspace's models. -/
def wsStatsOf (models : List SemModel) (refreshes : DsMap) : WsStats :=
  let failed_models := (models.filter fun m =>
    summary_failed (rlistFor refreshes (pyOr m.model_id m.id))).map fun m =>
      pyOr m.name (pyOr m.model_id m.id)
  let slow_models := (models.filter fun m =>
    summary_slow (rlistFor refreshes (pyOr m.model_id m.id))).map fun m =>
      pyOr m.name (pyOr m.model_id m.id)
  { model_count := models.length
    failed_count := failed_models.length
    slow_count := slow_models.length
    failed_models := failed_models
    slow_models := slow_models }

/-- `build_summary` (`src/app.py:41-91`): iterate the categories, skip
workspace ids missing from the live list, group entries
`module → env → [entry]` and record per-workspace stats. -/
def build_summary (workspaces : List Workspace) (categories : List (String × Cat))
    (semantic_models : List (String × List SemModel)) (refreshes_by_ws : RefMap) :
    List (String × List (String × List WsEntry)) × List (String × WsStats) :=
  categories.foldl (fun acc p =>
    let ws_id := p.1
    let cat := p.2
    match wsById workspaces ws_id with
    | none => acc
    | some ws =>
      let models := (alGet semantic_models ws_id).getD []
      let refreshes := (alGet refreshes_by_ws ws_id).getD []
      let stats := wsStatsOf models refreshes
      let module := pyOrS cat.module "Unassigned module"
      let env := pyOrS cat.env "unspecified"
      let entry : WsEntry := ⟨ws_id, ws.name, models, stats⟩
      (upsertSummary acc.1 module env entry, acc.2 ++ [(ws_id, stats)])) ([], [])

/-! ### Performance sets orchestrator (`performance_sets`, `src/app.py:219-285`) -/

/-- How an f-string renders a possibly-`None` looked-up name. -/
def dispStr (o : Option String) : String := o.getD "None"

/-- `ws_lookup = {w.get("id"): w.get("name") for w in workspaces}` followed
by `ws_lookup.get(ws_id, ws_id)`, rendered by the f-string. -/
def wsNameDisp (workspaces : List Workspace) (ws_id : String) : String :=
  match workspaces.reverse.find? fun w => w.id = some ws_id with
  | some w => dispStr w.name
  | none => ws_id

/-- `model_lookup = {m.get("model_id") or m.get("id"): m.get("name") for m}`
followed by `model_lookup.get(ds_id, ds_id)`, rendered by the f-string. -/
def modelNameDisp (mlist : List SemModel) (ds_id : String) : String :=
  match mlist.reverse.find? fun m => pyOr m.model_id m.id = some ds_id with
  | some m => dispStr m.name
  | none => ds_id

/-- `env_lookup = {ws_id: (categories.get(ws_id, {}).get("env") or "").upper()}`
followed by `env_lookup.get(ws_id, "")`. -/
def envLookup (categories : List (String × Cat)) (ws_id : String) : String :=
  match alGet categories ws_id with
  | some c => pyUpper (pyOrS c.env "")
  | none => ""

/-- One per-dataset trend series of the fine-grained 24h history. -/
structure Series where
  label : String
  env : String
  data : List XY
deriving DecidableEq

/-- The point one refresh record contributes to `history24`: start time
present and parseable, instant not before the 24h window cutoff, y the
duration in minutes (`(r.get("duration_seconds") or 0) / 60.0`). -/
def h24point (window_cutoff : ℚ) (r : Refresh) : Option XY :=
  match r.tsStr with
  | none => none
  | some ts =>
    match normalize_start_time ts with
    | none => none
    | some dt =>
      if dt < window_cutoff then none
      else some ⟨ts, py_or0 r.duration_seconds / 60⟩

/-- The series one dataset contributes to `history24`: skipped when its
(filtered) refresh list is empty or no record falls in the last-24h
window, otherwise its points stably sorted ascending by timestamp. -/
def h24entry (window_cutoff : ℚ) (label env : String) (rlist : List Refresh) :
    Option Series :=
  if rlist.isEmpty then none
  else
    let points := rlist.filterMap (h24point window_cutoff)
    if points.isEmpty then none
    else some ⟨label, env, points.mergeSort fun a b => strLe a.x b.x⟩

/-- The `history24` block of `performance_sets` (`src/app.py:237-273`),
computed from the window's filtered refresh mapping: per dataset with a
non-empty (filtered) list and at least one point in the fixed last-24h
window, a labelled series of points sorted ascending by timestamp. -/
def history24_of (now : ℚ) (workspaces : List Workspace)
    (categories : List (String × Cat)) (semantic_models : List (String × List SemModel))
    (filtered : RefMap) : List Series :=
  let window_cutoff := now - 24 * 3600
  filtered.flatMap fun p =>
    let ws_name := wsNameDisp workspaces p.1
    let env := envLookup categories p.1
    let mlist := (alGet semantic_models p.1).getD []
    p.2.filterMap fun q =>
      h24entry window_cutoff (modelNameDisp mlist q.1 ++ " (" ++ ws_name ++ ")") env q.2

/-- One named window of the dashboard payload. -/
structure PerfWindow where
  models : List ModelPerf
  top_slow : List ModelPerf
  top_fail : List ModelPerf
  efficient : List ModelPerf
  outliers : List ModelPerf
  history24 : List Series
  capacity : List XY
deriving DecidableEq

/-- The body of the per-window loop of `performance_sets`: filter, run the
aggregator, rank (Python's `sorted(..., reverse=True)` is a stable
descending sort, modelled by `mergeSort` with the flipped comparator),
build `history24` from the filtered mapping and the capacity series from
the window's cutoff. -/
def mkWindow (now : ℚ) (cutoff : Option ℚ) (workspaces : List Workspace)
    (categories : List (String × Cat)) (semantic_models : List (String × List SemModel))
    (refreshes_by_ws : RefMap) (capacity_metrics : List CapPoint) : PerfWindow :=
  let filtered := filter_refreshes_by_window refreshes_by_ws cutoff
  let models := build_performance workspaces categories semantic_models filtered false
  { models := models
    top_slow := ((models.filter fun m => decide (m.avg_sec > 0)).mergeSort
      fun a b => decide (b.avg_sec ≤ a.avg_sec)).take 10
    top_fail := ((models.filter fun m => decide (0 < m.failures)).mergeSort
      fun a b => decide (b.failures ≤ a.failures)).take 10
    efficient := models.filter (·.efficient)
    outliers := models.filter (·.outlier)
    history24 := history24_of now workspaces categories semantic_models filtered
    capacity := build_capacity_series capacity_metrics cutoff }

/-- `performance_sets` (`src/app.py:219-285`): the three named windows
`"24h"` (cutoff `now − 1 day`), `"7d"` (cutoff `now − 7 days`) and `"all"`
(no cutoff). -/
def performance_sets (now : ℚ) (workspaces : List Workspace)
    (categories : List (String × Cat)) (semantic_models : List (String × List SemModel))
    (refreshes_by_ws : RefMap) (capacity_metrics : List CapPoint) :
    List (String × PerfWindow) :=
  [("24h", some (now - 86400)), ("7d", some (now - 7 * 86400)), ("all", none)].map
    fun w => (w.1, mkWindow now w.2 workspaces categories semantic_models
      refreshes_by_ws capacity_metrics)

/-! ### Workspace-detail interval estimator (`compute_avg_interval_hours`,
`src/app.py:288-313`) -/

/-- The timestamp collection of `compute_avg_interval_hours`, whose
per-record `try` silently drops a malformed start time and keeps going. -/
def collect_timestamps_skip (rlist : List Refresh) : List ℚ :=
  rlist.filterMap fun r => r.tsStr.bind normalize_start_time

/-- The per-dataset value of `compute_avg_interval_hours`: the mean
consecutive gap in hours of the sorted valid start times, `0` with fewer
than two of them. -/
def avg_interval_of (rlist : List Refresh) : ℚ :=
  let timestamps := (collect_timestamps_skip rlist).mergeSort fun a b => decide (a ≤ b)
  if 2 ≤ timestamps.length then
    let deltas := deltasH timestamps
    if deltas.isEmpty then 0 else deltas.sum / deltas.length
  else 0

/-- `compute_avg_interval_hours` (`src/app.py:288-313`). -/
def compute_avg_interval_hours (refreshes_by_ds : DsMap) : List (String × ℚ) :=
  refreshes_by_ds.map fun p => (p.1, avg_interval_of p.2)

/-! ### Concrete fixtures for witnesses and counterexamples -/

/-- A refresh record with a given `start_time`, `status` and duration. -/
def mkR (ts st : Option String) (d : Option ℚ) : Refresh := ⟨ts, none, st, d⟩

/-- Refresh list with start times `T+6h, T+2h, T` (newest first),
`T = 2024-01-01T00:00:00Z`. -/
def c1_rlist : List Refresh :=
  [mkR (some "2024-01-01T06:00:00Z") (some "Completed") (some 100),
   mkR (some "2024-01-01T02:00:00Z") (some "Completed") (some 100),
   mkR (some "2024-01-01T00:00:00Z") (some "Completed") (some 100)]

/-- A record whose present start time fails to parse. -/
def c2_bad : Refresh := mkR (some "not-a-date") (some "Completed") none

/-- A record with an absent start time. -/
def c2_absent : Refresh := mkR none (some "Completed") (some 5)

/-- Two valid records two hours apart (newest first). -/
def c2_good : List Refresh :=
  [mkR (some "2024-01-01T02:00:00Z") (some "Completed") none,
   mkR (some "2024-01-01T00:00:00Z") (some "Completed") none]

/-- `c2_good` with the malformed record inserted in the middle. -/
def c2_mixed : List Refresh :=
  [mkR (some "2024-01-01T02:00:00Z") (some "Completed") none,
   c2_bad,
   mkR (some "2024-01-01T00:00:00Z") (some "Completed") none]

/-- A single refresh whose recorded duration is negative
(`duration_seconds = end_time − start_time` can be negative in the data). -/
def c3_neg : List Refresh := [⟨none, none, none, some (-10)⟩]

/-- Durations `115, 100, 85` (newest first), all completed: mean `100`,
last `115`. -/
def c5_rlist115 : List Refresh :=
  [mkR none (some "Completed") (some 115),
   mkR none (some "Completed") (some 100),
   mkR none (some "Completed") (some 85)]

/-- Durations `110, 100, 90` (newest first): mean `100`, last `110`. -/
def c5_rlist110 : List Refresh :=
  [mkR none (some "Completed") (some 110),
   mkR none (some "Completed") (some 100),
   mkR none (some "Completed") (some 90)]

/-- A one-workspace fixture. -/
def cW : List Workspace := [⟨some "w1", some "WS One"⟩]

/-- Its category mapping. -/
def cC : List (String × Cat) := [("w1", ⟨some "prod", some "Fin"⟩)]

/-- Its semantic-model mapping. -/
def cS : List (String × List SemModel) := [("w1", [⟨some "m1", none, some "Model One"⟩])]

/-- Its refresh mapping, giving model `m1` the `115/100/85` history. -/
def cR : RefMap := [("w1", [("m1", c5_rlist115)])]

/-- The single record `build_performance cW cC cS cR false` produces. -/
def c_model : ModelPerf :=
  mkModelPerf "w1" (wsById cW "w1") (alGet cC "w1") ⟨some "m1", none, some "Model One"⟩
    c5_rlist115

/-- The `"24h"` window computed from empty inputs at `now = 0`. -/
def c8w : PerfWindow := mkWindow 0 (some (0 - 86400)) [] [] [] [] []

/-- A record whose start time is malformed or absent: whatever (truthy)
start-time string it carries fails to parse. -/
def badStart (r : Refresh) : Prop :=
  ∀ s, r.tsStr = some s → normalize_start_time s = none

/-! ### Helper lemmas -/

theorem lexLe_total : ∀ as bs : List Char, (lexLe as bs || lexLe bs as) = true := by
  intro as
  induction as with
  | nil => intro bs; simp [lexLe]
  | cons a as ih =>
    intro bs
    cases bs with
    | nil => simp [lexLe]
    | cons b bs =>
      simp only [lexLe]
      rcases Nat.lt_trichotomy a.toNat b.toNat with h | h | h
      · rw [if_pos h]; simp
      · rw [if_neg (by omega), if_neg (by omega), if_neg (by omega), if_neg (by omega)]
        exact ih bs
      · rw [if_neg (by omega), if_pos h]; simp [h]

theorem lexLe_trans : ∀ as bs cs : List Char,
    lexLe as bs = true → lexLe bs cs = true → lexLe as cs = true := by
  intro as
  induction as with
  | nil => intro bs cs _ _; simp [lexLe]
  | cons a as ih =>
    intro bs cs h1 h2
    cases bs with
    | nil => simp [lexLe] at h1
    | cons b bs =>
      cases cs with
      | nil => simp [lexLe] at h2
      | cons c cs =>
        simp only [lexLe] at h1 h2 ⊢
        by_cases hab : a.toNat < b.toNat
        · by_cases hbc : b.toNat < c.toNat
          · rw [if_pos (by omega)]
          · rw [if_neg hbc] at h2
            by_cases hcb : c.toNat < b.toNat
            · rw [if_pos hcb] at h2; exact absurd h2 (by simp)
            · rw [if_pos (by omega)]
        · rw [if_neg hab] at h1
          by_cases hba : b.toNat < a.toNat
          · rw [if_pos hba] at h1; exact absurd h1 (by simp)
          · rw [if_neg hba] at h1
            by_cases hbc : b.toNat < c.toNat
            · rw [if_pos (by omega)]
            · rw [if_neg hbc] at h2
              by_cases hcb : c.toNat < b.toNat
              · rw [if_pos hcb] at h2; exact absurd h2 (by simp)
              · rw [if_neg hcb] at h2
                rw [if_neg (by omega), if_neg (by omega)]
                exact ih bs cs h1 h2

theorem strLe_trans (a b c : String) : strLe a b = true → strLe b c = true →
    strLe a c = true := lexLe_trans _ _ _

theorem strLe_total (a b : String) : (strLe a b || strLe b a) = true := lexLe_total _ _

theorem ascQ_trans : ∀ a b c : ℚ, decide (a ≤ b) = true → decide (b ≤ c) = true →
    decide (a ≤ c) = true := by
  intro a b c h1 h2
  simp only [decide_eq_true_eq] at *
  exact le_trans h1 h2

theorem ascQ_total : ∀ a b : ℚ, (decide (a ≤ b) || decide (b ≤ a)) = true := by
  intro a b
  simpa using le_total a b

theorem descKey_trans {β α : Type} [LinearOrder α] (f : β → α) :
    ∀ a b c : β, decide (f b ≤ f a) = true → decide (f c ≤ f b) = true →
      decide (f c ≤ f a) = true := by
  intro a b c h1 h2
  simp only [decide_eq_true_eq] at *
  exact le_trans h2 h1

theorem descKey_total {β α : Type} [LinearOrder α] (f : β → α) :
    ∀ a b : β, (decide (f b ≤ f a) || decide (f a ≤ f b)) = true := by
  intro a b
  simpa using (le_total (f b) (f a))

theorem xyLe_trans : ∀ a b c : XY, strLe a.x b.x = true → strLe b.x c.x = true →
    strLe a.x c.x = true := fun _ _ _ => lexLe_trans _ _ _

theorem xyLe_total : ∀ a b : XY, (strLe a.x b.x || strLe b.x a.x) = true :=
  fun _ _ => lexLe_total _ _

/-- Evaluating an ascending `mergeSort` of rationals against a known
sorted rearrangement. -/
theorem mergeSort_asc_eq {l l' : List ℚ} (h : l.Perm l') (hs : l'.Pairwise (· ≤ ·)) :
    l.mergeSort (fun a b => decide (a ≤ b)) = l' := by
  refine List.eq_of_perm_of_sorted ((List.mergeSort_perm l _).trans h) ?_ hs
  exact (List.sorted_mergeSort ascQ_trans ascQ_total l).imp (by simp)

theorem length_filter_add_length_filter_not {α : Type} (l : List α) (p q : α → Bool)
    (h : ∀ a, q a = !(p a)) :
    (l.filter p).length + (l.filter q).length = l.length := by
  induction l with
  | nil => simp
  | cons a l ih =>
    rw [List.filter_cons, List.filter_cons, h a]
    cases hpa : p a <;> simp [hpa] <;> omega

theorem list_sum_zero_mem_zero {l : List ℚ} (h0 : ∀ x ∈ l, 0 ≤ x) (hs : l.sum = 0) :
    ∀ x ∈ l, x = 0 := by
  induction l with
  | nil => simp
  | cons a l ih =>
    simp only [List.sum_cons] at hs
    have ha : 0 ≤ a := h0 a (by simp)
    have hl : 0 ≤ l.sum := List.sum_nonneg fun x hx => h0 x (by simp [hx])
    intro x hx
    rcases List.mem_cons.mp hx with rfl | hx
    · linarith
    · exact ih (fun y hy => h0 y (by simp [hy])) (by linarith) x hx

/-! ### Concrete timestamp evaluations -/

theorem normalize_t0 : normalize_start_time "2024-01-01T00:00:00Z" = some 63839664000 := by
  have h : parseISO (replaceZchars "2024-01-01T00:00:00Z".data) =
      some ⟨2024, 1, 1, 0, 0, 0, 0, 0, some 0⟩ := rfl
  rw [normalize_start_time, h]
  norm_num [Option.map, RawDT.instantUTC, rataDie, cumMonthDays, isLeap]

theorem normalize_t2h : normalize_start_time "2024-01-01T02:00:00Z" = some 63839671200 := by
  have h : parseISO (replaceZchars "2024-01-01T02:00:00Z".data) =
      some ⟨2024, 1, 1, 2, 0, 0, 0, 0, some 0⟩ := rfl
  rw [normalize_start_time, h]
  norm_num [Option.map, RawDT.instantUTC, rataDie, cumMonthDays, isLeap]

theorem normalize_t6h : normalize_start_time "2024-01-01T06:00:00Z" = some 63839685600 := by
  have h : parseISO (replaceZchars "2024-01-01T06:00:00Z".data) =
      some ⟨2024, 1, 1, 6, 0, 0, 0, 0, some 0⟩ := rfl
  rw [normalize_start_time, h]
  norm_num [Option.map, RawDT.instantUTC, rataDie, cumMonthDays, isLeap]

theorem normalize_bad : normalize_start_time "not-a-date" = none := rfl

theorem collect_c1 :
    collect_timestamps c1_rlist = some [63839685600, 63839671200, 63839664000] := by
  have e1 : (mkR (some "2024-01-01T06:00:00Z") (some "Completed") (some 100)).tsStr =
      some "2024-01-01T06:00:00Z" := rfl
  have e2 : (mkR (some "2024-01-01T02:00:00Z") (some "Completed") (some 100)).tsStr =
      some "2024-01-01T02:00:00Z" := rfl
  have e3 : (mkR (some "2024-01-01T00:00:00Z") (some "Completed") (some 100)).tsStr =
      some "2024-01-01T00:00:00Z" := rfl
  simp [c1_rlist, collect_timestamps, e1, e2, e3, normalize_t0, normalize_t2h, normalize_t6h]

theorem c1_sorted :
    ([63839685600, 63839671200, 63839664000] : List ℚ).mergeSort
      (fun a b => decide (a ≤ b)) = [63839664000, 63839671200, 63839685600] := by
  refine mergeSort_asc_eq ?_ ?_
  · exact List.reverse_perm [(63839664000 : ℚ), 63839671200, 63839685600]
  · norm_num [List.pairwise_cons]

theorem interval_freq_c1_eval : interval_freq c1_rlist = (1/3, 3) := by
  have hne : c1_rlist.isEmpty = false := rfl
  simp only [interval_freq, hne, Bool.false_eq_true, if_false, collect_c1, c1_sorted]
  norm_num [deltasH]

/-! ### Claim C1 -/

/-- C1 (counterexample): on a dataset whose refresh records have start
times `T`, `T+2h`, `T+6h` (with `T = 2024-01-01T00:00:00Z`, all valid),
the Interval Estimator of `build_performance` yields a mean inter-refresh
interval of 3 hours and `freq_per_hour = 1/3`, not 4 hours and 0.25 as
claimed: the consecutive deltas are 2h and 4h, whose mean is 3h. -/
theorem c1_counterexample :
    (interval_freq c1_rlist).2 = 3 ∧ (interval_freq c1_rlist).1 = 1/3 ∧
      ¬((interval_freq c1_rlist).2 = 4 ∧ (interval_freq c1_rlist).1 = 1/4) := by
  rw [interval_freq_c1_eval]
  norm_num

/-- C1 (amended): applied to a dataset whose refresh records have valid
start times sorting to `T`, `T+2h`, `T+6h`, the Interval Estimator yields
a mean inter-refresh interval of 3 hours and `freq_per_hour = 1/3`. -/
theorem c1_interval_estimator_amended (t : ℚ) (rlist : List Refresh) (tsl : List ℚ)
    (hcol : collect_timestamps rlist = some tsl)
    (hsort : tsl.mergeSort (fun a b => decide (a ≤ b)) = [t, t + 7200, t + 21600]) :
    interval_freq rlist = (1/3, 3) := by
  have hne : rlist.isEmpty = false := by
    cases rlist with
    | nil =>
      simp only [collect_timestamps, Option.some.injEq] at hcol
      rw [← hcol] at hsort
      simp at hsort
    | cons r rs => rfl
  simp only [interval_freq, hne, Bool.false_eq_true, if_false, hcol, hsort]
  norm_num [deltasH]

/-- C1 witness: the amended theorem applied to the concrete
`2024-01-01` refresh list. -/
theorem c1_witness : interval_freq c1_rlist = (1/3, 3) :=
  c1_interval_estimator_amended 63839664000 c1_rlist
    [63839685600, 63839671200, 63839664000] collect_c1
    (by rw [c1_sorted]; norm_num)

/-! ### Claim C2 helpers -/

theorem collect_c2_mixed : collect_timestamps c2_mixed = none := by
  have e2 : (mkR (some "2024-01-01T02:00:00Z") (some "Completed") none).tsStr =
      some "2024-01-01T02:00:00Z" := rfl
  have eb : c2_bad.tsStr = some "not-a-date" := rfl
  simp [c2_mixed, collect_timestamps, e2, eb, normalize_t2h, normalize_bad]

theorem collect_c2_good :
    collect_timestamps c2_good = some [63839671200, 63839664000] := by
  have e2 : (mkR (some "2024-01-01T02:00:00Z") (some "Completed") none).tsStr =
      some "2024-01-01T02:00:00Z" := rfl
  have e3 : (mkR (some "2024-01-01T00:00:00Z") (some "Completed") none).tsStr =
      some "2024-01-01T00:00:00Z" := rfl
  simp [c2_good, collect_timestamps, e2, e3, normalize_t0, normalize_t2h]

theorem interval_freq_c2_good : interval_freq c2_good = (1/2, 2) := by
  have hne : c2_good.isEmpty = false := rfl
  have hsort : ([63839671200, 63839664000] : List ℚ).mergeSort
      (fun a b => decide (a ≤ b)) = [63839664000, 63839671200] := by
    refine mergeSort_asc_eq (List.Perm.swap _ _ _) ?_
    norm_num [List.pairwise_cons]
  simp only [interval_freq, hne, Bool.false_eq_true, if_false, collect_c2_good, hsort]
  norm_num [deltasH]

theorem interval_freq_c2_mixed : interval_freq c2_mixed = (0, 0) := by
  have hne : c2_mixed.isEmpty = false := rfl
  simp only [interval_freq, hne, Bool.false_eq_true, if_false, collect_c2_mixed]

theorem collect_timestamps_absent (l1 l2 : List Refresh) (r : Refresh)
    (hts : r.tsStr = none) :
    collect_timestamps (l1 ++ r :: l2) = collect_timestamps (l1 ++ l2) := by
  induction l1 with
  | nil => simp [collect_timestamps, hts]
  | cons a l1 ih =>
    simp only [List.cons_append, collect_timestamps, List.append_eq]
    rw [ih]

theorem collect_timestamps_bad (l1 l2 : List Refresh) (r : Refresh) (s : String)
    (hts : r.tsStr = some s) (hbad : normalize_start_time s = none) :
    collect_timestamps (l1 ++ r :: l2) = none := by
  induction l1 with
  | nil => simp [collect_timestamps, hts, hbad]
  | cons a l1 ih =>
    simp only [List.cons_append, collect_timestamps, List.append_eq]
    rw [ih]
    cases a.tsStr with
    | none => rfl
    | some t => cases hnt : normalize_start_time t <;> simp [hnt]

theorem keepRefresh_badStart {r : Refresh} (hb : badStart r) (c : ℚ) :
    keepRefresh c r = false := by
  cases hts : r.tsStr with
  | none => simp [keepRefresh, hts]
  | some s => simp [keepRefresh, hts, hb s hts]

theorem filter_rlist_badStart (c : ℚ) (l1 l2 : List Refresh) (r : Refresh)
    (hb : badStart r) :
    filter_rlist c (l1 ++ r :: l2) = filter_rlist c (l1 ++ l2) := by
  simp only [filter_rlist, List.filter_append, List.filter_cons, keepRefresh_badStart hb]
  simp

theorem collect_skip_badStart (l1 l2 : List Refresh) (r : Refresh) (hb : badStart r) :
    collect_timestamps_skip (l1 ++ r :: l2) = collect_timestamps_skip (l1 ++ l2) := by
  have hnone : r.tsStr.bind normalize_start_time = none := by
    cases hts : r.tsStr with
    | none => rfl
    | some s => simpa using hb s hts
  simp only [collect_timestamps_skip, List.filterMap_append, List.filterMap_cons, hnone]

theorem avg_interval_badStart (l1 l2 : List Refresh) (r : Refresh) (hb : badStart r) :
    avg_interval_of (l1 ++ r :: l2) = avg_interval_of (l1 ++ l2) := by
  unfold avg_interval_of
  rw [collect_skip_badStart l1 l2 r hb]

theorem interval_freq_absent (l1 l2 : List Refresh) (r : Refresh)
    (hts : r.tsStr = none) :
    interval_freq (l1 ++ r :: l2) = interval_freq (l1 ++ l2) := by
  by_cases h0 : l1 ++ l2 = []
  · obtain ⟨h1, h2⟩ := List.append_eq_nil.mp h0
    subst h1; subst h2
    have hcol : collect_timestamps [r] = some [] := by
      simp [collect_timestamps, hts]
    simp [interval_freq, hcol, List.mergeSort_nil]
  · have hcol := collect_timestamps_absent l1 l2 r hts
    have hne1 : (l1 ++ r :: l2).isEmpty = false := by simp
    have hne2 : (l1 ++ l2).isEmpty = false := by
      simpa [List.isEmpty_iff] using h0
    simp only [interval_freq, hne1, hne2, Bool.false_eq_true, if_false, hcol]

theorem interval_freq_badParse (l1 l2 : List Refresh) (r : Refresh) (s : String)
    (hts : r.tsStr = some s) (hbad : normalize_start_time s = none) :
    interval_freq (l1 ++ r :: l2) = (0, 0) := by
  have hcol := collect_timestamps_bad l1 l2 r s hts hbad
  have hne1 : (l1 ++ r :: l2).isEmpty = false := by simp
  simp only [interval_freq, hne1, Bool.false_eq_true, if_false, hcol]

/-! ### Claim C2 -/

/-- C2 (counterexample): in the Performance Aggregator's interval
estimation a malformed start time is NOT dropped from the computation
alone.  With two valid records two hours apart, inserting a record whose
start time `"not-a-date"` is present but unparseable zeroes
`freq_per_hour` and `avg_interval_hours` for the whole dataset (the
single `try` wraps the entire collection loop), instead of leaving the
values `(1/2, 2)` computed from the remaining valid records. -/
theorem c2_counterexample :
    c2_bad.tsStr = some "not-a-date" ∧ normalize_start_time "not-a-date" = none ∧
    interval_freq c2_mixed = (0, 0) ∧ interval_freq c2_good = (1/2, 2) ∧
    interval_freq c2_mixed ≠ interval_freq c2_good := by
  refine ⟨rfl, normalize_bad, interval_freq_c2_mixed, interval_freq_c2_good, ?_⟩
  rw [interval_freq_c2_mixed, interval_freq_c2_good]
  intro h
  have := congrArg Prod.snd h
  norm_num at this

/-- C2 (amended): a record with a malformed or absent start time is
silently dropped, leaving the rest of the list processed normally, in the
window filter and in the workspace-detail interval estimator; in the
Performance Aggregator's interval estimation only an absent start time is
dropped per record, while a present but unparseable one zeroes the whole
dataset's `freq_per_hour`/`avg_interval_hours` (and in all cases the
functions are total: no exception reaches the caller). -/
theorem c2_malformed_skip_amended :
    (∀ (c : ℚ) (l1 l2 : List Refresh) (r : Refresh), badStart r →
      filter_rlist c (l1 ++ r :: l2) = filter_rlist c (l1 ++ l2)) ∧
    (∀ (l1 l2 : List Refresh) (r : Refresh), badStart r →
      collect_timestamps_skip (l1 ++ r :: l2) = collect_timestamps_skip (l1 ++ l2)) ∧
    (∀ (l1 l2 : List Refresh) (r : Refresh), badStart r →
      avg_interval_of (l1 ++ r :: l2) = avg_interval_of (l1 ++ l2)) ∧
    (∀ (l1 l2 : List Refresh) (r : Refresh), r.tsStr = none →
      interval_freq (l1 ++ r :: l2) = interval_freq (l1 ++ l2)) ∧
    (∀ (l1 l2 : List Refresh) (r : Refresh) (s : String), r.tsStr = some s →
      normalize_start_time s = none → interval_freq (l1 ++ r :: l2) = (0, 0)) :=
  ⟨filter_rlist_badStart, collect_skip_badStart, avg_interval_badStart,
    interval_freq_absent, interval_freq_badParse⟩

/-- C2 witness: the amended theorem applied to concrete malformed and
absent records. -/
theorem c2_witness :
    filter_rlist 0 ([] ++ c2_bad :: c2_good) = filter_rlist 0 ([] ++ c2_good) ∧
    collect_timestamps_skip ([] ++ c2_bad :: []) = collect_timestamps_skip ([] ++ []) ∧
    avg_interval_of ([] ++ c2_bad :: c2_good) = avg_interval_of ([] ++ c2_good) ∧
    interval_freq ([] ++ c2_absent :: []) = interval_freq ([] ++ []) ∧
    interval_freq ([] ++ c2_bad :: c2_good) = (0, 0) := by
  have hb : badStart c2_bad := by
    intro s hs
    have h1 : c2_bad.tsStr = some "not-a-date" := rfl
    rw [h1] at hs
    injection hs with h2
    rw [← h2]
    exact normalize_bad
  exact ⟨c2_malformed_skip_amended.1 0 [] c2_good c2_bad hb,
    c2_malformed_skip_amended.2.1 [] [] c2_bad hb,
    c2_malformed_skip_amended.2.2.1 [] c2_good c2_bad hb,
    c2_malformed_skip_amended.2.2.2.1 [] [] c2_absent rfl,
    c2_malformed_skip_amended.2.2.2.2 [] c2_good c2_bad "not-a-date" rfl normalize_bad⟩

/-! ### Claim C3 -/

/-- C3 (counterexample): the Summary Builder's "slow" test and the
Performance Aggregator's "outlier" test do NOT agree on every refresh
list.  On a single record whose recorded duration is negative (`-10`,
possible since `duration_seconds` is stored as `end − start`), the
summary marks it slow (`-10 > -11`) while the aggregator does not
(`avg_sec = -10` fails its `avg_sec > 0` guard). -/
theorem c3_counterexample :
    summary_slow c3_neg = true ∧ perf_outlier c3_neg = false ∧
      summary_slow c3_neg ≠ perf_outlier c3_neg := by
  have hdur : durationsOf [(⟨none, none, none, some (-10)⟩ : Refresh)] = [-10] := rfl
  refine ⟨?_, ?_, ?_⟩
  · norm_num [summary_slow, c3_neg, hdur, py_or0]
  · norm_num [perf_outlier, c3_neg, perf_avg_sec, hdur]
  · norm_num [summary_slow, perf_outlier, c3_neg, hdur, py_or0, perf_avg_sec]

/-- C3 (amended): on every refresh list (most-recent-first) whose
non-null durations are all nonnegative — in particular on empty lists and
lists whose durations are all null or all zero — the Summary Builder's
"slow" mark and the Performance Aggregator's "outlier" mark agree: both
take the list head as most recent, treat a null duration as 0, and
compare strictly against the mean of the non-null durations times 1.1.
With a negative duration they can disagree. -/
theorem c3_slow_outlier_amended (rlist : List Refresh)
    (h : ∀ q ∈ durationsOf rlist, 0 ≤ q) :
    summary_slow rlist = perf_outlier rlist := by
  cases rlist with
  | nil => rfl
  | cons latest rest =>
    by_cases hd : (durationsOf (latest :: rest)).isEmpty
    · have havg : perf_avg_sec (latest :: rest) = 0 := by
        simp [perf_avg_sec, hd]
      simp [summary_slow, hd, perf_outlier, havg]
    · have havg_def : perf_avg_sec (latest :: rest) =
          (durationsOf (latest :: rest)).sum / (durationsOf (latest :: rest)).length := by
        simp [perf_avg_sec, hd]
      have hslow : summary_slow (latest :: rest) =
          decide (py_or0 latest.duration_seconds >
            (durationsOf (latest :: rest)).sum /
              (durationsOf (latest :: rest)).length * (11/10)) := by
        simp [summary_slow, hd]
      have hlast : perf_last_sec (latest :: rest) = py_or0 latest.duration_seconds := rfl
      by_cases havg : 0 < perf_avg_sec (latest :: rest)
      · have hdec : decide ((durationsOf (latest :: rest)).sum /
            ((durationsOf (latest :: rest)).length : ℚ) > 0) = true := by
          rw [havg_def] at havg
          simpa using havg
        simp only [perf_outlier, hslow, hlast, havg_def, hdec, Bool.true_and]
      · have hlen : 0 < ((durationsOf (latest :: rest)).length : ℚ) := by
          have hne : (durationsOf (latest :: rest)).length ≠ 0 := by
            simpa [List.isEmpty_iff, List.length_eq_zero] using hd
          positivity
        have hge : 0 ≤ (durationsOf (latest :: rest)).sum := List.sum_nonneg h
        have hsle : (durationsOf (latest :: rest)).sum /
            ((durationsOf (latest :: rest)).length : ℚ) ≤ 0 := by
          rw [havg_def] at havg
          exact not_lt.mp havg
        have hsum_le : (durationsOf (latest :: rest)).sum ≤ 0 := by
          have h2 := mul_le_mul_of_nonneg_right hsle (le_of_lt hlen)
          rw [div_mul_cancel₀ _ (ne_of_gt hlen)] at h2
          simpa using h2
        have hsum0 : (durationsOf (latest :: rest)).sum = 0 := le_antisymm hsum_le hge
        have hall := list_sum_zero_mem_zero h hsum0
        have hlast0 : py_or0 latest.duration_seconds = 0 := by
          cases hld : latest.duration_seconds with
          | none => rfl
          | some d =>
            have hdmem : d ∈ durationsOf (latest :: rest) := by
              simp [durationsOf, List.filterMap_cons, hld]
            simp [py_or0, hall d hdmem]
        have hob : perf_outlier (latest :: rest) = false := by
          simp [perf_outlier, havg]
        rw [hslow, hlast0, hob, hsum0]
        simp

/-- C3 witness: the amended theorem applied to the all-nonnegative
`115/100/85` list. -/
theorem c3_witness : summary_slow c5_rlist115 = perf_outlier c5_rlist115 := by
  refine c3_slow_outlier_amended c5_rlist115 ?_
  have hdur : durationsOf c5_rlist115 = [115, 100, 85] := rfl
  rw [hdur]
  intro q hq
  simp only [List.mem_cons, List.not_mem_nil, or_false] at hq
  rcases hq with rfl | rfl | rfl <;> norm_num

/-! ### Performance aggregator record lemmas -/

theorem mkModelPerf_avg_sec (i w c sm rl) :
    (mkModelPerf i w c sm rl).avg_sec = perf_avg_sec rl := rfl

theorem mkModelPerf_last_sec (i w c sm rl) :
    (mkModelPerf i w c sm rl).last_sec = perf_last_sec rl := rfl

theorem mkModelPerf_outlier (i w c sm rl) :
    (mkModelPerf i w c sm rl).outlier = perf_outlier rl := rfl

theorem mkModelPerf_failures (i w c sm rl) :
    (mkModelPerf i w c sm rl).failures =
      (rl.filter fun r => rStatusNorm r ≠ "completed").length := rfl

theorem mkModelPerf_successes (i w c sm rl) :
    (mkModelPerf i w c sm rl).successes =
      (rl.filter fun r => rStatusNorm r = "completed").length := rfl

theorem mkModelPerf_total (i w c sm rl) : (mkModelPerf i w c sm rl).total = rl.length := rfl

theorem mkModelPerf_last_status (i w c sm rl) :
    (mkModelPerf i w c sm rl).last_status = rl.head?.bind (·.status) := rfl

theorem mkModelPerf_efficient (i w c sm rl) :
    (mkModelPerf i w c sm rl).efficient =
      perf_efficient (rl.filter fun r => rStatusNorm r ≠ "completed").length rl := rfl

theorem mem_build_performance {workspaces : List Workspace}
    {categories : List (String × Cat)} {semantic_models : List (String × List SemModel)}
    {refreshes_by_ws : RefMap} {skip_empty : Bool} {m : ModelPerf}
    (hm : m ∈ build_performance workspaces categories semantic_models refreshes_by_ws
      skip_empty) :
    ∃ ws_id ws cat sm rlist, m = mkModelPerf ws_id ws cat sm rlist := by
  simp only [build_performance, List.mem_flatMap] at hm
  obtain ⟨p, hp, hm⟩ := hm
  obtain ⟨sm, hsm, hm⟩ := hm
  by_cases hc : skip_empty &&
      (rlistFor ((alGet refreshes_by_ws p.1).getD []) (pyOr sm.model_id sm.id)).isEmpty
  · rw [if_pos hc] at hm
    cases hm
  · rw [if_neg hc] at hm
    rw [List.mem_singleton.mp hm]
    exact ⟨p.1, _, _, sm, _, rfl⟩

theorem perf_outlier_eq_true_iff (rl : List Refresh) :
    perf_outlier rl = true ↔
      (0 < perf_avg_sec rl ∧ perf_avg_sec rl * (11/10) < perf_last_sec rl) := by
  simp [perf_outlier, Bool.and_eq_true, decide_eq_true_eq, gt_iff_lt]

theorem perf_efficient_parts {failures : ℕ} {rl : List Refresh}
    (h : perf_efficient failures rl = true) :
    failures = 0 ∧ 0 < perf_avg_sec rl ∧ perf_avg_sec rl ≤ 300 := by
  simpa [perf_efficient, Bool.and_eq_true, decide_eq_true_eq, and_assoc] using h

theorem durations_ne_nil_of_avg_pos {rl : List Refresh} (h : 0 < perf_avg_sec rl) :
    durationsOf rl ≠ [] := by
  intro hnil
  rw [perf_avg_sec] at h
  simp [hnil] at h

/-! ### Claims C5 and C6 -/

theorem avg115 : perf_avg_sec c5_rlist115 = 100 := by
  have hdur : durationsOf c5_rlist115 = [115, 100, 85] := rfl
  norm_num [perf_avg_sec, hdur]

theorem avg110 : perf_avg_sec c5_rlist110 = 100 := by
  have hdur : durationsOf c5_rlist110 = [110, 100, 90] := rfl
  norm_num [perf_avg_sec, hdur]

theorem fixture_eval : build_performance cW cC cS cR false = [c_model] := rfl

/-- C5: in every `build_performance` output record, `outlier` is true iff
`avg_sec > 0` and `last_sec > avg_sec × 1.1`, with strict comparison; with
`avg_sec = 100` and `last_sec = 115` the model is an outlier
(`115 > 110`), and with `avg_sec = 100` and `last_sec = 110` it is not
(not strictly greater). -/
theorem c5_outlier_rule :
    (∀ (workspaces : List Workspace) (categories : List (String × Cat))
      (semantic_models : List (String × List SemModel)) (refreshes_by_ws : RefMap)
      (skip_empty : Bool) (m : ModelPerf),
      m ∈ build_performance workspaces categories semantic_models refreshes_by_ws
        skip_empty →
      (m.outlier = true ↔ (0 < m.avg_sec ∧ m.avg_sec * (11/10) < m.last_sec))) ∧
    perf_avg_sec c5_rlist115 = 100 ∧ perf_last_sec c5_rlist115 = 115 ∧
      perf_outlier c5_rlist115 = true ∧
    perf_avg_sec c5_rlist110 = 100 ∧ perf_last_sec c5_rlist110 = 110 ∧
      perf_outlier c5_rlist110 = false := by
  refine ⟨?_, avg115, rfl, ?_, avg110, rfl, ?_⟩
  · intro ws cats sms rm se m hm
    obtain ⟨i, w, c, sm, rl, rfl⟩ := mem_build_performance hm
    rw [mkModelPerf_outlier, mkModelPerf_avg_sec, mkModelPerf_last_sec]
    exact perf_outlier_eq_true_iff rl
  · rw [perf_outlier_eq_true_iff, avg115]
    have : perf_last_sec c5_rlist115 = 115 := rfl
    rw [this]
    norm_num
  · rw [show perf_outlier c5_rlist110 = false ↔ ¬(perf_outlier c5_rlist110 = true) by simp]
    rw [perf_outlier_eq_true_iff, avg110]
    have : perf_last_sec c5_rlist110 = 110 := rfl
    rw [this]
    norm_num

/-- C5 witness: the outlier rule applied to the concrete fixture model. -/
theorem c5_witness :
    c_model.outlier = true ↔ (0 < c_model.avg_sec ∧ c_model.avg_sec * (11/10) < c_model.last_sec) :=
  c5_outlier_rule.1 cW cC cS cR false c_model
    (by rw [fixture_eval]; exact List.mem_singleton.mpr rfl)

/-- C6: every `build_performance` output record satisfies
`failures + successes = total`: `failures` counts records whose
normalized (case-insensitive, null-as-empty) status is not `"completed"`,
`successes` the complement, and `total` is the list length. -/
theorem c6_failures_successes_total :
    ∀ (workspaces : List Workspace) (categories : List (String × Cat))
      (semantic_models : List (String × List SemModel)) (refreshes_by_ws : RefMap)
      (skip_empty : Bool) (m : ModelPerf),
      m ∈ build_performance workspaces categories semantic_models refreshes_by_ws
        skip_empty →
      m.failures + m.successes = m.total := by
  intro ws cats sms rm se m hm
  obtain ⟨i, w, c, sm, rl, rfl⟩ := mem_build_performance hm
  rw [mkModelPerf_failures, mkModelPerf_successes, mkModelPerf_total]
  refine length_filter_add_length_filter_not rl _ _ ?_
  intro a
  simp [decide_not]

/-- C6 witness: the counting identity on the concrete fixture model. -/
theorem c6_witness : c_model.failures + c_model.successes = c_model.total :=
  c6_failures_successes_total cW cC cS cR false c_model
    (by rw [fixture_eval]; exact List.mem_singleton.mpr rfl)

/-! ### Claim C7 -/

theorem filter_rlist_idem (c : ℚ) (rl : List Refresh) :
    filter_rlist c (filter_rlist c rl) = filter_rlist c rl := by
  simp only [filter_rlist]
  exact List.filter_eq_self.mpr fun a ha => List.of_mem_filter ha

/-- C7: window filtering is idempotent — for every refresh mapping and
every cutoff (including the `None` identity cutoff), filtering an
already-filtered mapping again with the same cutoff yields an identical
result. -/
theorem c7_filter_idempotent :
    ∀ (refreshes_by_ws : RefMap) (cutoff : Option ℚ),
      filter_refreshes_by_window (filter_refreshes_by_window refreshes_by_ws cutoff)
        cutoff = filter_refreshes_by_window refreshes_by_ws cutoff := by
  intro m cutoff
  cases cutoff with
  | none => rfl
  | some c =>
    simp only [filter_refreshes_by_window, List.map_map]
    refine List.map_congr_left ?_
    intro p _
    simp only [Function.comp]
    rw [List.map_map]
    refine congrArg (fun l => (p.1, l)) ?_
    refine List.map_congr_left ?_
    intro q _
    simp only [Function.comp]
    rw [filter_rlist_idem]

/-! ### Window and ranking lemmas -/

theorem all_completed_of_failures_zero {rl : List Refresh}
    (h : (rl.filter fun r => rStatusNorm r ≠ "completed").length = 0) :
    ∀ r ∈ rl, rStatusNorm r = "completed" := by
  intro r hr
  by_contra hne
  have hmem : r ∈ rl.filter (fun r => rStatusNorm r ≠ "completed") :=
    List.mem_filter.mpr ⟨hr, by simpa using hne⟩
  have := List.length_pos_of_mem hmem
  omega

theorem mem_take10_mergeSort {α : Type} {le : α → α → Bool} {l : List α} {m : α}
    (h : m ∈ (l.mergeSort le).take 10) : m ∈ l :=
  List.mem_mergeSort.mp (List.take_subset _ _ h)

theorem mkWindow_models (now : ℚ) (cutoff : Option ℚ) (ws : List Workspace)
    (cats : List (String × Cat)) (sms : List (String × List SemModel)) (rm : RefMap)
    (cm : List CapPoint) :
    (mkWindow now cutoff ws cats sms rm cm).models =
      build_performance ws cats sms (filter_refreshes_by_window rm cutoff) false := rfl

theorem mkWindow_top_slow (now : ℚ) (cutoff : Option ℚ) (ws : List Workspace)
    (cats : List (String × Cat)) (sms : List (String × List SemModel)) (rm : RefMap)
    (cm : List CapPoint) :
    (mkWindow now cutoff ws cats sms rm cm).top_slow =
      (((mkWindow now cutoff ws cats sms rm cm).models.filter
          fun m => decide (m.avg_sec > 0)).mergeSort
        fun a b => decide (b.avg_sec ≤ a.avg_sec)).take 10 := rfl

theorem mkWindow_top_fail (now : ℚ) (cutoff : Option ℚ) (ws : List Workspace)
    (cats : List (String × Cat)) (sms : List (String × List SemModel)) (rm : RefMap)
    (cm : List CapPoint) :
    (mkWindow now cutoff ws cats sms rm cm).top_fail =
      (((mkWindow now cutoff ws cats sms rm cm).models.filter
          fun m => decide (0 < m.failures)).mergeSort
        fun a b => decide (b.failures ≤ a.failures)).take 10 := rfl

theorem mem_performance_sets {now : ℚ} {ws : List Workspace} {cats : List (String × Cat)}
    {sms : List (String × List SemModel)} {rm : RefMap} {cm : List CapPoint}
    {k : String} {w : PerfWindow}
    (h : (k, w) ∈ performance_sets now ws cats sms rm cm) :
    w = mkWindow now (some (now - 86400)) ws cats sms rm cm ∨
    w = mkWindow now (some (now - 7 * 86400)) ws cats sms rm cm ∨
    w = mkWindow now none ws cats sms rm cm := by
  simp only [performance_sets, List.map_cons, List.map_nil, List.mem_cons,
    List.not_mem_nil, or_false, Prod.mk.injEq] at h
  rcases h with ⟨_, hw⟩ | ⟨_, hw⟩ | ⟨_, hw⟩
  · exact Or.inl hw
  · exact Or.inr (Or.inl hw)
  · exact Or.inr (Or.inr hw)

/-! ### Claim C10 -/

/-- C10 (implicit invariant): every model record flagged `efficient` by
the Performance Aggregator has a non-empty refresh list (`total ≥ 1`),
zero failures, a positive mean duration (hence at least one non-null
duration), a `last_status` that case-insensitively normalizes to
`"completed"`, every record of its underlying list completed, and it can
never appear in a window's `top_fail` list. -/
theorem c10_efficient_invariant :
    (∀ (workspaces : List Workspace) (categories : List (String × Cat))
      (semantic_models : List (String × List SemModel)) (refreshes_by_ws : RefMap)
      (skip_empty : Bool) (m : ModelPerf),
      m ∈ build_performance workspaces categories semantic_models refreshes_by_ws
        skip_empty →
      m.efficient = true →
      1 ≤ m.total ∧ m.failures = 0 ∧ 0 < m.avg_sec ∧
        pyLower (pyOrS m.last_status "") = "completed") ∧
    (∀ (ws_id : String) (w : Option Workspace) (c : Option Cat) (sm : SemModel)
      (rlist : List Refresh),
      (mkModelPerf ws_id w c sm rlist).efficient = true →
      rlist ≠ [] ∧ (∃ r ∈ rlist, r.duration_seconds ≠ none) ∧
        ∀ r ∈ rlist, rStatusNorm r = "completed") ∧
    (∀ (now : ℚ) (workspaces : List Workspace) (categories : List (String × Cat))
      (semantic_models : List (String × List SemModel)) (refreshes_by_ws : RefMap)
      (capacity_metrics : List CapPoint) (k : String) (w : PerfWindow),
      (k, w) ∈ performance_sets now workspaces categories semantic_models refreshes_by_ws
        capacity_metrics →
      ∀ m ∈ w.models, m.efficient = true → m ∉ w.top_fail) := by
  refine ⟨?_, ?_, ?_⟩
  · intro ws cats sms rm se m hm heff
    obtain ⟨i, wk, c, sm, rl, rfl⟩ := mem_build_performance hm
    rw [mkModelPerf_efficient] at heff
    obtain ⟨hf0, havg, _⟩ := perf_efficient_parts heff
    have hdne := durations_ne_nil_of_avg_pos havg
    have hrne : rl ≠ [] := by
      intro h
      subst h
      exact hdne rfl
    refine ⟨?_, ?_, ?_, ?_⟩
    · rw [mkModelPerf_total]
      exact List.length_pos.mpr hrne
    · rw [mkModelPerf_failures]
      exact hf0
    · rw [mkModelPerf_avg_sec]
      exact havg
    · rw [mkModelPerf_last_status]
      cases rl with
      | nil => exact absurd rfl hrne
      | cons r0 tl =>
        have hcomp := all_completed_of_failures_zero hf0 r0 (by simp)
        simpa [rStatusNorm] using hcomp
  · intro i wk c sm rl heff
    rw [mkModelPerf_efficient] at heff
    obtain ⟨hf0, havg, _⟩ := perf_efficient_parts heff
    have hdne := durations_ne_nil_of_avg_pos havg
    have hrne : rl ≠ [] := by
      intro h
      subst h
      exact hdne rfl
    refine ⟨hrne, ?_, all_completed_of_failures_zero hf0⟩
    obtain ⟨q, hq⟩ := List.exists_mem_of_ne_nil (durationsOf rl) hdne
    obtain ⟨r, hr, hrd⟩ := List.mem_filterMap.mp hq
    exact ⟨r, hr, by simp [hrd]⟩
  · intro now ws cats sms rm cm k w hw m hmem heff
    have hgen : ∀ cutoff, m ∈ (mkWindow now cutoff ws cats sms rm cm).models →
        m ∉ (mkWindow now cutoff ws cats sms rm cm).top_fail := by
      intro cutoff hmem2 hin
      obtain ⟨i, wk, c, sm, rl, hmeq⟩ := mem_build_performance
        (by rw [mkWindow_models] at hmem2; exact hmem2)
      rw [mkWindow_top_fail] at hin
      have hmemf := mem_take10_mergeSort hin
      have hfpos := (List.mem_filter.mp hmemf).2
      rw [hmeq, mkModelPerf_efficient] at heff
      obtain ⟨hf0, _, _⟩ := perf_efficient_parts heff
      rw [hmeq] at hfpos
      simp only [mkModelPerf_failures, decide_eq_true_eq] at hfpos
      omega
    rcases mem_performance_sets hw with h | h | h <;> rw [h] at hmem ⊢ <;>
      exact hgen _ hmem

theorem c_model_efficient : c_model.efficient = true := by
  rw [show c_model.efficient = perf_efficient
    ((c5_rlist115.filter fun r => rStatusNorm r ≠ "completed").length) c5_rlist115 from rfl]
  have hf : (c5_rlist115.filter fun r => rStatusNorm r ≠ "completed").length = 0 := rfl
  rw [hf]
  norm_num [perf_efficient, avg115]

/-- C10 witness: the invariant applied to the efficient fixture model. -/
theorem c10_witness :
    1 ≤ c_model.total ∧ c_model.failures = 0 ∧ 0 < c_model.avg_sec ∧
      pyLower (pyOrS c_model.last_status "") = "completed" :=
  c10_efficient_invariant.1 cW cC cS cR false c_model
    (by rw [fixture_eval]; exact List.mem_singleton.mpr rfl) c_model_efficient

/-! ### Claim C8 -/

theorem ranking_props {α β : Type} [LinearOrder β] (key : α → β) (l : List α)
    (p : α → Bool) :
    (((l.filter p).mergeSort fun a b => decide (key b ≤ key a)).take 10).length ≤ 10 ∧
    (∀ m ∈ ((l.filter p).mergeSort fun a b => decide (key b ≤ key a)).take 10,
      p m = true) ∧
    (((l.filter p).mergeSort fun a b => decide (key b ≤ key a)).take 10).Pairwise
      (fun a b => key b ≤ key a) ∧
    ((l.filter p).mergeSort fun a b => decide (key b ≤ key a)).Perm (l.filter p) ∧
    ((l.filter p).mergeSort fun a b => decide (key b ≤ key a)).Pairwise
      (fun a b => key b ≤ key a) ∧
    (∀ a b : α, List.Sublist [a, b] (l.filter p) → key b ≤ key a →
      List.Sublist [a, b] ((l.filter p).mergeSort fun a b => decide (key b ≤ key a))) := by
  have hsorted := @List.sorted_mergeSort α (fun a b : α => decide (key b ≤ key a))
    (descKey_trans key) (descKey_total key) (l.filter p)
  have hpw : (((l.filter p).mergeSort fun a b => decide (key b ≤ key a))).Pairwise
      (fun a b => key b ≤ key a) := hsorted.imp fun h => of_decide_eq_true h
  refine ⟨?_, ?_, ?_, List.mergeSort_perm _ _, hpw, ?_⟩
  · simp [List.length_take]
  · intro m hm
    exact (List.mem_filter.mp (mem_take10_mergeSort hm)).2
  · exact hpw.sublist (List.take_sublist _ _)
  · intro a b hsub hk
    exact List.sublist_mergeSort (descKey_trans key) (descKey_total key)
      (List.pairwise_pair.mpr (decide_eq_true hk)) hsub

/-- C8: in every window produced by `performance_sets`, `top_slow` has at
most 10 entries, all with `avg_sec > 0`, sorted descending by `avg_sec`,
and `top_fail` has at most 10 entries, all with `failures > 0`, sorted
descending by `failures`; each is the 10-prefix of a stable descending
sort of the filtered models, where pairs already in input order whose
keys are `≥` (in particular ties) keep that input iteration order. -/
theorem c8_top_rankings :
    ∀ (now : ℚ) (workspaces : List Workspace) (categories : List (String × Cat))
      (semantic_models : List (String × List SemModel)) (refreshes_by_ws : RefMap)
      (capacity_metrics : List CapPoint) (k : String) (w : PerfWindow),
      (k, w) ∈ performance_sets now workspaces categories semantic_models
        refreshes_by_ws capacity_metrics →
      (w.top_slow.length ≤ 10 ∧ (∀ m ∈ w.top_slow, 0 < m.avg_sec) ∧
        w.top_slow.Pairwise (fun a b => b.avg_sec ≤ a.avg_sec) ∧
        ∃ sl : List ModelPerf,
          sl.Perm (w.models.filter fun m => decide (m.avg_sec > 0)) ∧
          sl.Pairwise (fun a b => b.avg_sec ≤ a.avg_sec) ∧ w.top_slow = sl.take 10 ∧
          ∀ a b : ModelPerf,
            List.Sublist [a, b] (w.models.filter fun m => decide (m.avg_sec > 0)) →
            b.avg_sec ≤ a.avg_sec → List.Sublist [a, b] sl) ∧
      (w.top_fail.length ≤ 10 ∧ (∀ m ∈ w.top_fail, 0 < m.failures) ∧
        w.top_fail.Pairwise (fun a b => b.failures ≤ a.failures) ∧
        ∃ fl : List ModelPerf,
          fl.Perm (w.models.filter fun m => decide (0 < m.failures)) ∧
          fl.Pairwise (fun a b => b.failures ≤ a.failures) ∧ w.top_fail = fl.take 10 ∧
          ∀ a b : ModelPerf,
            List.Sublist [a, b] (w.models.filter fun m => decide (0 < m.failures)) →
            b.failures ≤ a.failures → List.Sublist [a, b] fl) := by
  intro now ws cats sms rm cm k w hw
  have hgen : ∀ cutoff : Option ℚ,
      ((mkWindow now cutoff ws cats sms rm cm).top_slow.length ≤ 10 ∧
        (∀ m ∈ (mkWindow now cutoff ws cats sms rm cm).top_slow, 0 < m.avg_sec) ∧
        (mkWindow now cutoff ws cats sms rm cm).top_slow.Pairwise
          (fun a b => b.avg_sec ≤ a.avg_sec) ∧
        ∃ sl : List ModelPerf,
          sl.Perm ((mkWindow now cutoff ws cats sms rm cm).models.filter
            fun m => decide (m.avg_sec > 0)) ∧
          sl.Pairwise (fun a b => b.avg_sec ≤ a.avg_sec) ∧
          (mkWindow now cutoff ws cats sms rm cm).top_slow = sl.take 10 ∧
          ∀ a b : ModelPerf,
            List.Sublist [a, b] ((mkWindow now cutoff ws cats sms rm cm).models.filter
              fun m => decide (m.avg_sec > 0)) →
            b.avg_sec ≤ a.avg_sec → List.Sublist [a, b] sl) ∧
      ((mkWindow now cutoff ws cats sms rm cm).top_fail.length ≤ 10 ∧
        (∀ m ∈ (mkWindow now cutoff ws cats sms rm cm).top_fail, 0 < m.failures) ∧
        (mkWindow now cutoff ws cats sms rm cm).top_fail.Pairwise
          (fun a b => b.failures ≤ a.failures) ∧
        ∃ fl : List ModelPerf,
          fl.Perm ((mkWindow now cutoff ws cats sms rm cm).models.filter
            fun m => decide (0 < m.failures)) ∧
          fl.Pairwise (fun a b => b.failures ≤ a.failures) ∧
          (mkWindow now cutoff ws cats sms rm cm).top_fail = fl.take 10 ∧
          ∀ a b : ModelPerf,
            List.Sublist [a, b] ((mkWindow now cutoff ws cats sms rm cm).models.filter
              fun m => decide (0 < m.failures)) →
            b.failures ≤ a.failures → List.Sublist [a, b] fl) := by
    intro cutoff
    constructor
    · obtain ⟨R1, R2, R3, R4, R5, R6⟩ := ranking_props ModelPerf.avg_sec
        (mkWindow now cutoff ws cats sms rm cm).models (fun m => decide (m.avg_sec > 0))
      rw [mkWindow_top_slow]
      refine ⟨R1, ?_, R3, _, R4, R5, rfl, R6⟩
      intro m hm
      simpa using R2 m hm
    · obtain ⟨R1, R2, R3, R4, R5, R6⟩ := ranking_props ModelPerf.failures
        (mkWindow now cutoff ws cats sms rm cm).models (fun m => decide (0 < m.failures))
      rw [mkWindow_top_fail]
      refine ⟨R1, ?_, R3, _, R4, R5, rfl, R6⟩
      intro m hm
      simpa using R2 m hm
  rcases mem_performance_sets hw with h | h | h <;> rw [h] <;> exact hgen _

/-- C8 witness: the ranking bounds on the `"24h"` window of empty inputs. -/
theorem c8_witness : c8w.top_slow.length ≤ 10 ∧ c8w.top_fail.length ≤ 10 := by
  have h := c8_top_rankings 0 [] [] [] [] [] "24h" c8w (List.Mem.head _)
  exact ⟨h.1.1, h.2.1⟩

/-! ### Claim C9 -/

theorem capKeep_eq_some_iff {cutoff : Option ℚ} {p : CapPoint} {pt : XY} :
    capKeep cutoff p = some pt ↔
      (pyOr p.ts p.timestamp = some pt.x ∧ capVal p = some pt.y ∧
       ∃ q : ℚ, normalize_start_time pt.x = some q ∧ ∀ c, cutoff = some c → c ≤ q) := by
  obtain ⟨x, y⟩ := pt
  cases hts : pyOr p.ts p.timestamp with
  | none => simp [capKeep, hts]
  | some ts =>
    cases hval : capVal p with
    | none => simp [capKeep, hts, hval]
    | some val =>
      cases hn : normalize_start_time ts with
      | none =>
        simp only [capKeep, hts, hval, hn, Option.some.injEq]
        constructor
        · intro h
          exact absurd h (by simp)
        · rintro ⟨hx, _, q, hq, _⟩
          rw [← hx, hn] at hq
          cases hq
      | some dt =>
        cases cutoff with
        | none =>
          simp only [capKeep, hts, hval, hn, Option.some.injEq, XY.mk.injEq]
          constructor
          · rintro ⟨hx, hy⟩
            refine ⟨hx, hy, dt, ?_, fun c hc => nomatch hc⟩
            rw [← hx]
            exact hn
          · rintro ⟨hx, hy, _, _, _⟩
            exact ⟨hx, hy⟩
        | some c =>
          by_cases hc : dt ≥ c
          · simp only [capKeep, hts, hval, hn, hc, if_true, Option.some.injEq, XY.mk.injEq]
            constructor
            · rintro ⟨hx, hy⟩
              refine ⟨hx, hy, dt, ?_, ?_⟩
              · rw [← hx]
                exact hn
              · intro c' hc'
                rw [← hc']
                exact hc
            · rintro ⟨hx, hy, _, _, _⟩
              exact ⟨hx, hy⟩
          · simp only [capKeep, hts, hval, hn, hc, if_false, Option.some.injEq]
            constructor
            · intro h
              exact nomatch h
            · rintro ⟨hx, _, q, hq, hcut⟩
              rw [← hx, hn] at hq
              injection hq with hq'
              have h2 : c ≤ dt := by
                rw [hq']
                exact hcut c rfl
              exact absurd h2 hc

/-- C9: the Capacity Series Builder drops every sample with a missing
timestamp, a missing value or an unparseable timestamp; it keeps exactly
the samples whose normalized timestamp is `≥` the cutoff (all samples
when the cutoff is absent); and it returns `{x, y}` points sorted
ascending by the original timestamp string. -/
theorem c9_capacity_series :
    ∀ (capacity_metrics : List CapPoint) (cutoff : Option ℚ),
      (build_capacity_series capacity_metrics cutoff).Pairwise
        (fun a b => strLe a.x b.x = true) ∧
      ∀ pt : XY, pt ∈ build_capacity_series capacity_metrics cutoff ↔
        ∃ p ∈ capacity_metrics,
          pyOr p.ts p.timestamp = some pt.x ∧ capVal p = some pt.y ∧
          ∃ q : ℚ, normalize_start_time pt.x = some q ∧ ∀ c, cutoff = some c → c ≤ q := by
  intro ps cutoff
  constructor
  · by_cases hemp : ps.isEmpty
    · simp [build_capacity_series, hemp]
    · simp only [build_capacity_series, hemp, Bool.false_eq_true, if_false]
      exact List.sorted_mergeSort xyLe_trans xyLe_total _
  · intro pt
    by_cases hemp : ps.isEmpty
    · have h0 : ps = [] := List.isEmpty_iff.mp hemp
      subst h0
      simp [build_capacity_series]
    · simp only [build_capacity_series, hemp, Bool.false_eq_true, if_false,
        List.mem_mergeSort, List.mem_filterMap]
      exact exists_congr fun p => and_congr_right fun _ => capKeep_eq_some_iff

/-! ### Claim C4 -/

theorem h24point_none_of_not_keep {c wc : ℚ} (hcw : c ≤ wc) {r : Refresh}
    (h : keepRefresh c r = false) : h24point wc r = none := by
  unfold h24point
  cases hts : r.tsStr with
  | none => simp
  | some s =>
    cases hn : normalize_start_time s with
    | none => simp [hn]
    | some dt =>
      have hdt : dt < c := by
        unfold keepRefresh at h
        rw [hts] at h
        simp only [hn, decide_eq_false_iff_not, ge_iff_le, not_le] at h
        exact h
      simp [hn, lt_of_lt_of_le hdt hcw]

theorem filterMap_h24_filter {c wc : ℚ} (hcw : c ≤ wc) (rl : List Refresh) :
    (filter_rlist c rl).filterMap (h24point wc) = rl.filterMap (h24point wc) := by
  induction rl with
  | nil => rfl
  | cons r rest ih =>
    simp only [filter_rlist, List.filter_cons] at ih ⊢
    cases hk : keepRefresh c r with
    | true =>
      simp only [hk, if_true]
      cases hp : h24point wc r <;> simp [List.filterMap_cons, hp, ih]
    | false =>
      simp only [hk, Bool.false_eq_true, if_false]
      rw [ih, List.filterMap_cons, h24point_none_of_not_keep hcw hk]

theorem h24entry_filter {c wc : ℚ} (hcw : c ≤ wc) (lab env : String)
    (rl : List Refresh) :
    h24entry wc lab env (filter_rlist c rl) = h24entry wc lab env rl := by
  unfold h24entry
  by_cases hf : (filter_rlist c rl).isEmpty
  · have hfl : filter_rlist c rl = [] := List.isEmpty_iff.mp hf
    have hpts : rl.filterMap (h24point wc) = [] := by
      rw [← filterMap_h24_filter hcw rl, hfl]
      rfl
    by_cases hr : rl.isEmpty <;> simp [hf, hfl, hr, hpts]
  · have hr : rl.isEmpty = false := by
      cases rl with
      | nil => simp [filter_rlist] at hf
      | cons a rest => rfl
    rw [filterMap_h24_filter hcw]
    simp only [hf, hr, Bool.false_eq_true, if_false]

theorem history24_filter_eq {now : ℚ} (c : ℚ) (hcw : c ≤ now - 24 * 3600)
    (ws : List Workspace) (cats : List (String × Cat))
    (sms : List (String × List SemModel)) (m : RefMap) :
    history24_of now ws cats sms (filter_refreshes_by_window m (some c)) =
      history24_of now ws cats sms m := by
  unfold history24_of filter_refreshes_by_window
  induction m with
  | nil => rfl
  | cons p rest ih =>
    simp only [List.map_cons, List.flatMap_cons]
    rw [ih]
    congr 1
    rw [List.filterMap_map]
    refine List.filterMap_congr ?_
    intro q _
    simp only [Function.comp]
    exact h24entry_filter hcw _ _ _

/-- C4: for a fixed evaluation instant `now` and fixed inputs, the
`history24` series computed inside the three named windows (`"24h"`,
`"7d"`, `"all"`) of `performance_sets` are identical — the same dataset
series with the same labels and the same points, independent of which
window's filtered refresh mapping they are built from. -/
theorem c4_history24_identical :
    ∀ (now : ℚ) (workspaces : List Workspace) (categories : List (String × Cat))
      (semantic_models : List (String × List SemModel)) (refreshes_by_ws : RefMap)
      (capacity_metrics : List CapPoint),
      ∃ h : List Series,
        (performance_sets now workspaces categories semantic_models refreshes_by_ws
          capacity_metrics).map (fun p => p.2.history24) = [h, h, h] := by
  intro now ws cats sms rm cm
  refine ⟨history24_of now ws cats sms rm, ?_⟩
  simp only [performance_sets, List.map_cons, List.map_nil]
  have h24 : ∀ cutoff, (mkWindow now cutoff ws cats sms rm cm).history24 =
      history24_of now ws cats sms (filter_refreshes_by_window rm cutoff) := fun _ => rfl
  rw [h24, h24, h24,
    history24_filter_eq (now - 86400) (by norm_num) ws cats sms rm,
    history24_filter_eq (now - 7 * 86400) (by linarith) ws cats sms rm]
  rfl
